import Mathlib

/-!
Shallow embedding of the on-ledger election core of the Online-Voting-System
repository: the Move modules `voting::voter_registry`, `voting::encrypted_ballot`
(the BallotBox), `voting::bulletin_board` and `voting::tally_validator`, found in
`aptos-contracts/build/voting/sources/`.

Conventions of the embedding:
- `vector<u8>` values (hashes, ids, proofs) are `Bytes := List Nat`;
- addresses are `Nat`; `timestamp::now_seconds()` is an explicit `now : Nat`
  argument to every function that reads it;
- `aptos_std::table::Table` is an association list with distinct keys; the
  source always guards `table::add` behind a `contains` check, so add/upsert
  are both modelled by `tset` (replace-if-present, append-if-absent);
- a Move `assert!(c, E)` aborting the transaction is an `Except.error`
  result; since an aborted Move transaction commits nothing, an error result
  represents the unchanged pre-state;
- `event::emit` has no effect on the persistent state and is not modelled.
-/

namespace Voting

abbrev Bytes := List Nat
abbrev Addr := Nat

/-- Abort codes of the four modules (union of their `const E... : u64` lists). -/
inductive Err where
  | EALREADY_REGISTERED
  | ENOT_REGISTERED
  | EINVALID_EPIC_HASH
  | EUNAUTHORIZED
  | EPOLLING_NOT_STARTED
  | EPOLLING_ENDED
  | ENOT_ELIGIBLE
  | EINVALID_COMMITMENT
  | EPOLLING_NOT_ENDED
  | EALREADY_FINALIZED
  | EINVALID_PROOF
  | ENOT_FINALIZED
  | ENOT_FOUND
  | EALREADY_RECORDED
deriving DecidableEq, Repr

/-- `true` iff the transaction committed (did not abort). -/
def okB {α : Type} (e : Except Err α) : Bool :=
  match e with
  | .ok _ => true
  | .error _ => false

/-- Extract the committed state, with a default for the abort case. -/
def getOk {α : Type} (e : Except Err α) (d : α) : α :=
  match e with
  | .ok a => a
  | .error _ => d

/-! ### Table embedding (`aptos_std::table`) -/

/-- `table::borrow` as an option: first binding of the key, if any. -/
def tget {α : Type} : List (Bytes × α) → Bytes → Option α
  | [], _ => none
  | p :: rest, k => if p.1 = k then some p.2 else tget rest k

/-- `table::contains`. -/
def tcontains {α : Type} (t : List (Bytes × α)) (k : Bytes) : Bool :=
  (tget t k).isSome

/-- Replace the binding of `k` if present, append it otherwise.  Models both
`table::add` (only ever called on an absent key in this code base) and
`table::upsert` / `borrow_mut`-then-write. -/
def tset {α : Type} : List (Bytes × α) → Bytes → α → List (Bytes × α)
  | [], k, v => [(k, v)]
  | p :: rest, k, v => if p.1 = k then (k, v) :: rest else p :: tset rest k v

/-- The keys of a table, in storage order. -/
def keysOf {α : Type} (t : List (Bytes × α)) : List Bytes :=
  t.map Prod.fst

theorem tget_tset_self {α : Type} (t : List (Bytes × α)) (k : Bytes) (v : α) :
    tget (tset t k v) k = some v := by
  induction t with
  | nil => simp [tset, tget]
  | cons p rest ih =>
    by_cases h : p.1 = k
    · simp [tset, h, tget]
    · simp [tset, h, tget, ih]

theorem tget_tset_ne {α : Type} (t : List (Bytes × α)) (k k' : Bytes) (v : α)
    (h : k' ≠ k) : tget (tset t k v) k' = tget t k' := by
  have hkk : k ≠ k' := Ne.symm h
  induction t with
  | nil => simp [tset, tget, hkk]
  | cons p rest ih =>
    by_cases hp : p.1 = k
    · subst hp
      simp [tset, tget, hkk, Ne.symm h]
    · by_cases hp' : p.1 = k'
      · simp [tset, hp, tget, hp', h]
      · simp [tset, hp, tget, hp', ih]

theorem keysOf_tset {α : Type} (t : List (Bytes × α)) (k : Bytes) (v : α) :
    keysOf (tset t k v)
      = if tcontains t k then keysOf t else keysOf t ++ [k] := by
  induction t with
  | nil => simp [tset, keysOf, tcontains, tget]
  | cons p rest ih =>
    by_cases h : p.1 = k
    · simp [tset, h, keysOf, tcontains, tget]
    · simp only [tset, if_neg h, keysOf, List.map_cons, tcontains, tget, if_neg h]
      rw [show keysOf (tset rest k v) = List.map Prod.fst (tset rest k v) from rfl] at ih
      rw [ih]
      by_cases hc : tcontains rest k
      · simp only [tcontains] at hc ⊢
        simp [hc, keysOf]
      · simp only [tcontains] at hc ⊢
        simp [hc, keysOf]

theorem mem_keysOf_iff_tcontains {α : Type} (t : List (Bytes × α)) (k : Bytes) :
    k ∈ keysOf t ↔ tcontains t k = true := by
  induction t with
  | nil => simp [keysOf, tcontains, tget]
  | cons p rest ih =>
    by_cases h : p.1 = k
    · simp [keysOf, tcontains, tget, h]
    · simp [keysOf, tcontains, tget, h, Ne.symm h] at ih ⊢
      exact ih

/-! ### `voting::voter_registry` -/

/-- `VoterRegistration` record (voter_registry.move). -/
structure VoterRegistration where
  epic_hash : Bytes
  aadhaar_hash : Bytes
  biometric_hash : Bytes
  registered_at : Nat
  is_active : Bool
  is_struck_off : Bool
  has_voted : Bool
deriving DecidableEq, Repr

/-- `Registry` global storage (voter_registry.move). -/
structure Registry where
  voters : List (Bytes × VoterRegistration)
  total_registered : Nat
  admin : Addr
deriving DecidableEq, Repr

/-- `voter_registry::initialize`: empty store administered by the caller. -/
def init_registry (admin : Addr) : Registry :=
  { voters := [], total_registered := 0, admin := admin }

/-- `voter_registry::register_voter`.  Aborts `EALREADY_REGISTERED` when the
`epic_hash` key exists; otherwise inserts a record with `is_active = true`,
`is_struck_off = true`, `has_voted = false` and bumps `total_registered`. -/
def register_voter (r : Registry) (now : Nat)
    (epic_hash aadhaar_hash biometric_hash : Bytes) : Except Err Registry :=
  if tcontains r.voters epic_hash then .error .EALREADY_REGISTERED
  else
    .ok { r with
      voters := tset r.voters epic_hash
        { epic_hash := epic_hash
          aadhaar_hash := aadhaar_hash
          biometric_hash := biometric_hash
          registered_at := now
          is_active := true
          is_struck_off := true
          has_voted := false }
      total_registered := r.total_registered + 1 }

/-- `voter_registry::is_voter_eligible`: registered, active, and not voted. -/
def is_voter_eligible (r : Registry) (epic_hash : Bytes) : Bool :=
  match tget r.voters epic_hash with
  | none => false
  | some v => v.is_active && !v.has_voted

/-- `voter_registry::mark_voted`.  Aborts `ENOT_REGISTERED` when absent,
otherwise sets `has_voted := true`. -/
def mark_voted (r : Registry) (epic_hash : Bytes) : Except Err Registry :=
  match tget r.voters epic_hash with
  | none => .error .ENOT_REGISTERED
  | some v =>
      .ok { r with voters := tset r.voters epic_hash { v with has_voted := true } }

/-- `voter_registry::reset_voted_status`.  Aborts `ENOT_REGISTERED` when
absent, otherwise sets `has_voted := false`. -/
def reset_voted_status (r : Registry) (epic_hash : Bytes) : Except Err Registry :=
  match tget r.voters epic_hash with
  | none => .error .ENOT_REGISTERED
  | some v =>
      .ok { r with voters := tset r.voters epic_hash { v with has_voted := false } }

/-- The `mark_voted` entry point as dispatched on chain: the Move function
takes no `&signer` parameter, so the transaction sender `_sender` is accepted
from any account and ignored by the body. -/
def mark_voted_entry (r : Registry) (_sender : Addr) (epic_hash : Bytes) :
    Except Err Registry :=
  mark_voted r epic_hash

/-- The `reset_voted_status` entry point as dispatched on chain: no `&signer`
parameter, so any sender is accepted and ignored. -/
def reset_voted_entry (r : Registry) (_sender : Addr) (epic_hash : Bytes) :
    Except Err Registry :=
  reset_voted_status r epic_hash

/-- `voter_registry::deactivate_voter`: admin-gated; `EUNAUTHORIZED` is
checked before `ENOT_REGISTERED`. -/
def deactivate_voter (r : Registry) (caller : Addr) (epic_hash : Bytes) :
    Except Err Registry :=
  if caller ≠ r.admin then .error .EUNAUTHORIZED
  else
    match tget r.voters epic_hash with
    | none => .error .ENOT_REGISTERED
    | some v =>
        .ok { r with voters := tset r.voters epic_hash { v with is_active := false } }

/-- `voter_registry::get_voter_details` view:
`(is_active, registered_at, is_struck_off, has_voted)` with an all-default
not-found sentinel. -/
def get_voter_details (r : Registry) (epic_hash : Bytes) :
    Bool × Nat × Bool × Bool :=
  match tget r.voters epic_hash with
  | none => (false, 0, false, false)
  | some v => (v.is_active, v.registered_at, v.is_struck_off, v.has_voted)

/-- `voter_registry::get_total_registered` view. -/
def get_total_registered (r : Registry) : Nat :=
  r.total_registered

/-! ### `voting::encrypted_ballot` (the BallotBox) -/

/-- `VoteCommitment` record (encrypted_ballot.move). -/
structure VoteCommitment where
  voter_commitment : Bytes
  vote_hash : Bytes
  ipfs_hash : Bytes
  tracking_code_hash : Bytes
  cast_at : Nat
  is_final : Bool
deriving DecidableEq, Repr

/-- `BallotBox` global storage (encrypted_ballot.move). -/
structure BallotBox where
  votes : List (Bytes × VoteCommitment)
  vote_count : Nat
  polling_start : Nat
  polling_end : Nat
  admin : Addr
  merkle_root : Bytes
deriving DecidableEq, Repr

/-- `encrypted_ballot::initialize`. -/
def init_ballot_box (admin : Addr) (polling_start polling_end : Nat) : BallotBox :=
  { votes := [], vote_count := 0, polling_start := polling_start,
    polling_end := polling_end, admin := admin, merkle_root := [] }

/-- `encrypted_ballot::verify_vote` view: `(is_final, vote_hash, cast_at)`,
with sentinel `(false, empty, 0)` when the tracking code is unknown. -/
def verify_vote (bb : BallotBox) (tracking_code_hash : Bytes) :
    Bool × Bytes × Nat :=
  match tget bb.votes tracking_code_hash with
  | none => (false, [], 0)
  | some v => (v.is_final, v.vote_hash, v.cast_at)

/-- `encrypted_ballot::is_polling_active` view:
`now >= polling_start && now <= polling_end` (both ends inclusive). -/
def is_polling_active (bb : BallotBox) (now : Nat) : Bool :=
  decide (bb.polling_start ≤ now) && decide (now ≤ bb.polling_end)

/-- `encrypted_ballot::get_vote_count` view. -/
def get_vote_count (bb : BallotBox) : Nat :=
  bb.vote_count

/-- `encrypted_ballot::update_merkle_root`: admin-gated. -/
def ballot_update_merkle_root (bb : BallotBox) (caller : Addr)
    (merkle_root : Bytes) : Except Err BallotBox :=
  if caller ≠ bb.admin then .error .EUNAUTHORIZED
  else .ok { bb with merkle_root := merkle_root }

/-- `encrypted_ballot::get_merkle_root` view. -/
def get_merkle_root (bb : BallotBox) : Bytes :=
  bb.merkle_root

/-! ### `voting::bulletin_board` -/

/-- `VoteRecord` record (bulletin_board.move). -/
structure VoteRecord where
  commitment : Bytes
  timestamp : Nat
  is_valid : Bool
  merkle_proof : List Bytes
deriving DecidableEq, Repr

/-- `BulletinBoard` global storage (bulletin_board.move).  Note: it stores no
admin address. -/
structure BulletinBoard where
  records : List (Bytes × VoteRecord)
  total_records : Nat
  merkle_root : Bytes
  election_id : Bytes
deriving DecidableEq, Repr

/-- `bulletin_board::initialize`. -/
def init_bulletin_board (election_id : Bytes) : BulletinBoard :=
  { records := [], total_records := 0, merkle_root := [], election_id := election_id }

/-- `bulletin_board::record_vote`: upsert; `total_records` bumped only on first
insert; timestamp refreshed and `is_valid := true`, `merkle_proof := empty`
on every call.  The `_publisher` signer is unused. -/
def record_vote (b : BulletinBoard) (_publisher : Addr) (now : Nat)
    (tracking_code_hash commitment : Bytes) : Except Err BulletinBoard :=
  let is_update := tcontains b.records tracking_code_hash
  let record : VoteRecord :=
    { commitment := commitment, timestamp := now, is_valid := true, merkle_proof := [] }
  .ok { b with
    records := tset b.records tracking_code_hash record
    total_records := if is_update then b.total_records else b.total_records + 1 }

/-- `bulletin_board::get_vote_record` view: `(commitment, timestamp, is_valid)`
with sentinel `(empty, 0, false)` when absent. -/
def get_vote_record (b : BulletinBoard) (tracking_code_hash : Bytes) :
    Bytes × Nat × Bool :=
  match tget b.records tracking_code_hash with
  | none => ([], 0, false)
  | some vr => (vr.commitment, vr.timestamp, vr.is_valid)

/-- `bulletin_board::update_merkle_proof`.  The source reads the caller's
address (`let _ = signer::address_of(admin)`) but performs NO authorization
check; it aborts only `ENOT_FOUND` when the record is absent. -/
def board_update_merkle_proof (b : BulletinBoard) (_caller : Addr)
    (tracking_code_hash : Bytes) (merkle_proof : List Bytes) :
    Except Err BulletinBoard :=
  match tget b.records tracking_code_hash with
  | none => .error .ENOT_FOUND
  | some vr =>
      let records := tset b.records tracking_code_hash { vr with merkle_proof := merkle_proof }
      .ok { b with records := records }

/-- `bulletin_board::update_merkle_root`.  The source performs NO
authorization check on the caller and never aborts. -/
def board_update_merkle_root (b : BulletinBoard) (_caller : Addr)
    (merkle_root : Bytes) : Except Err BulletinBoard :=
  .ok { b with merkle_root := merkle_root }

/-- `bulletin_board::get_statistics` view. -/
def get_statistics (b : BulletinBoard) : Nat × Bytes × Bytes :=
  (b.total_records, b.merkle_root, b.election_id)

/-- `bulletin_board::verify_merkle_proof` view: root equality only. -/
def verify_merkle_proof (b : BulletinBoard) (tracking_code_hash : Bytes)
    (merkle_root : Bytes) : Bool :=
  if tcontains b.records tracking_code_hash then decide (merkle_root = b.merkle_root)
  else false

/-! ### `voting::tally_validator` -/

/-- `CandidateResult` record (tally_validator.move); `percentage` is fixed
point ×100 (4523 = 45.23%). -/
structure CandidateResult where
  candidate_id : Bytes
  vote_count : Nat
  percentage : Nat
deriving DecidableEq, Repr

/-- `TallyRecord` global storage (tally_validator.move). -/
structure TallyRecord where
  election_id : Bytes
  results : List (Bytes × CandidateResult)
  total_votes : Nat
  valid_votes : Nat
  invalid_votes : Nat
  polling_end_time : Nat
  tally_start_time : Nat
  tally_end_time : Nat
  is_finalized : Bool
  admin : Addr
  result_hash : Bytes
  zkp_proof : Bytes
deriving DecidableEq, Repr

/-- `tally_validator::initialize`. -/
def init_tally (admin : Addr) (election_id : Bytes) (polling_end_time : Nat) :
    TallyRecord :=
  { election_id := election_id, results := [], total_votes := 0,
    valid_votes := 0, invalid_votes := 0, polling_end_time := polling_end_time,
    tally_start_time := 0, tally_end_time := 0, is_finalized := false,
    admin := admin, result_hash := [], zkp_proof := [] }

/-- `tally_validator::start_tally`: checks, in order, caller = admin
(`EUNAUTHORIZED`), `now >= polling_end_time` (`EPOLLING_NOT_ENDED`), and
`!is_finalized` (`EALREADY_FINALIZED`); then records `total_votes` and
`tally_start_time`. -/
def start_tally (t : TallyRecord) (caller : Addr) (now : Nat)
    (total_votes : Nat) : Except Err TallyRecord :=
  if caller ≠ t.admin then .error .EUNAUTHORIZED
  else if now < t.polling_end_time then .error .EPOLLING_NOT_ENDED
  else if t.is_finalized then .error .EALREADY_FINALIZED
  else .ok { t with total_votes := total_votes, tally_start_time := now }

/-- `tally_validator::record_result`: caller = admin and not finalized;
upserts the per-candidate result. -/
def record_result (t : TallyRecord) (caller : Addr) (candidate_id : Bytes)
    (vote_count percentage : Nat) : Except Err TallyRecord :=
  if caller ≠ t.admin then .error .EUNAUTHORIZED
  else if t.is_finalized then .error .EALREADY_FINALIZED
  else
    let result : CandidateResult :=
      { candidate_id := candidate_id, vote_count := vote_count, percentage := percentage }
    .ok { t with results := tset t.results candidate_id result }

/-- `tally_validator::finalize_tally`: caller = admin and not finalized;
writes `valid_votes`, `invalid_votes`, `result_hash`, `zkp_proof`,
`tally_end_time` and sets `is_finalized := true`. -/
def finalize_tally (t : TallyRecord) (caller : Addr) (now : Nat)
    (valid_votes invalid_votes : Nat) (result_hash zkp_proof : Bytes) :
    Except Err TallyRecord :=
  if caller ≠ t.admin then .error .EUNAUTHORIZED
  else if t.is_finalized then .error .EALREADY_FINALIZED
  else
    .ok { t with valid_votes := valid_votes, invalid_votes := invalid_votes,
                 result_hash := result_hash, zkp_proof := zkp_proof,
                 tally_end_time := now, is_finalized := true }

/-- `tally_validator::get_candidate_result` view. -/
def get_candidate_result (t : TallyRecord) (candidate_id : Bytes) :
    Bool × Nat × Nat :=
  match tget t.results candidate_id with
  | none => (false, 0, 0)
  | some res => (true, res.vote_count, res.percentage)

/-- `tally_validator::get_tally_summary` view. -/
def get_tally_summary (t : TallyRecord) : Nat × Nat × Nat × Bool × Nat :=
  (t.total_votes, t.valid_votes, t.invalid_votes, t.is_finalized, t.tally_end_time)

/-- `tally_validator::verify_tally_proof` view: false if not finalized, else
equality with the stored `result_hash`. -/
def verify_tally_proof (t : TallyRecord) (result_hash : Bytes) : Bool :=
  if !t.is_finalized then false else decide (result_hash = t.result_hash)

/-- `tally_validator::get_zkp_proof` view: aborts `ENOT_FINALIZED` before
finalization. -/
def get_zkp_proof (t : TallyRecord) : Except Err Bytes :=
  if !t.is_finalized then .error .ENOT_FINALIZED else .ok t.zkp_proof

/-- `tally_validator::is_finalized` view. -/
def is_finalized_view (t : TallyRecord) : Bool :=
  t.is_finalized

/-! ### Combined on-chain state and `encrypted_ballot::cast_vote`

`cast_vote` reads/writes the `BallotBox` resource and calls into
`voter_registry` (`is_voter_eligible`, `mark_voted`).  It touches neither the
`BulletinBoard` nor the `TallyRecord` resource, so we model it on the full
chain state to make that visible. -/

/-- All four global resources published under `@voting`. -/
structure ChainState where
  registry : Registry
  ballot_box : BallotBox
  board : BulletinBoard
  tally : TallyRecord
deriving DecidableEq, Repr

/-- `encrypted_ballot::cast_vote`.  Checks, in order: `now >= polling_start`
(`EPOLLING_NOT_STARTED`), `now <= polling_end` (`EPOLLING_ENDED`),
`is_voter_eligible` (`ENOT_ELIGIBLE`).  On a revote it first sets the old
commitment's `is_final := false`, then upserts the new commitment
(`is_final := true`, `cast_at := now`); `vote_count` is bumped only on a
fresh tracking code.  Finally calls `voter_registry::mark_voted`.  The
`_voter` signer is unused by the body. -/
def cast_vote (s : ChainState) (_voter : Addr) (now : Nat)
    (epic_hash voter_commitment vote_hash ipfs_hash tracking_code_hash : Bytes) :
    Except Err ChainState :=
  let bb := s.ballot_box
  if now < bb.polling_start then .error .EPOLLING_NOT_STARTED
  else if bb.polling_end < now then .error .EPOLLING_ENDED
  else if !is_voter_eligible s.registry epic_hash then .error .ENOT_ELIGIBLE
  else
    let is_revote := tcontains bb.votes tracking_code_hash
    let votes0 :=
      if is_revote then
        match tget bb.votes tracking_code_hash with
        | some old => tset bb.votes tracking_code_hash { old with is_final := false }
        | none => bb.votes
      else bb.votes
    let commitment : VoteCommitment :=
      { voter_commitment := voter_commitment, vote_hash := vote_hash,
        ipfs_hash := ipfs_hash, tracking_code_hash := tracking_code_hash,
        cast_at := now, is_final := true }
    let votes1 := tset votes0 tracking_code_hash commitment
    let count := if is_revote then bb.vote_count else bb.vote_count + 1
    match mark_voted s.registry epic_hash with
    | .error e => .error e
    | .ok reg =>
        .ok { s with registry := reg,
                     ballot_box := { bb with votes := votes1, vote_count := count } }

/-- One `cast_vote` transaction: sender, on-chain time, and the five byte
arguments of the entry function. -/
structure CastReq where
  sender : Addr
  now : Nat
  epic_hash : Bytes
  voter_commitment : Bytes
  vote_hash : Bytes
  ipfs_hash : Bytes
  tracking_code_hash : Bytes
deriving DecidableEq, Repr

/-- Run a sequence of `cast_vote` transactions, stopping at the first abort. -/
def runCasts (s : ChainState) : List CastReq → Except Err ChainState
  | [] => .ok s
  | r :: rest =>
      match cast_vote s r.sender r.now r.epic_hash r.voter_commitment
        r.vote_hash r.ipfs_hash r.tracking_code_hash with
      | .error e => .error e
      | .ok s' => runCasts s' rest

/-! ### TallyValidator operations as a step relation (for the state invariant) -/

/-- The mutating entry functions of `tally_validator` after `initialize`. -/
inductive TallyOp where
  | startT (caller : Addr) (now : Nat) (total_votes : Nat)
  | recordR (caller : Addr) (candidate_id : Bytes) (vote_count percentage : Nat)
  | finalizeT (caller : Addr) (now : Nat) (valid_votes invalid_votes : Nat)
      (result_hash zkp_proof : Bytes)
deriving DecidableEq, Repr

/-- Dispatch one tally transaction. -/
def tstep (t : TallyRecord) : TallyOp → Except Err TallyRecord
  | .startT caller now total_votes => start_tally t caller now total_votes
  | .recordR caller cid cnt pct => record_result t caller cid cnt pct
  | .finalizeT caller now v i rh zp => finalize_tally t caller now v i rh zp

/-- Whether a tally operation is a `finalize_tally` call. -/
def isFinalizeOp : TallyOp → Bool
  | .finalizeT _ _ _ _ _ _ => true
  | _ => false

/-! ### Concrete fixtures used by witnesses and counterexamples

Admin address `1`, polling window `[10, 20]`, three registered voters with
epic hashes `[1]`, `[2]`, `[3]`. -/

/-- Registry after one registration. -/
def regA : Registry :=
  getOk (register_voter (init_registry 1) 9 [1] [11] [12]) (init_registry 1)

/-- Registry after two registrations. -/
def regAB : Registry :=
  getOk (register_voter regA 9 [2] [21] [22]) regA

/-- Registry after three registrations. -/
def regABC : Registry :=
  getOk (register_voter regAB 9 [3] [51] [52]) regAB

/-- Freshly initialized ballot box, polling window `[10, 20]`. -/
def ballot0 : BallotBox := init_ballot_box 1 10 20

/-- Freshly initialized bulletin board. -/
def board0 : BulletinBoard := init_bulletin_board [5]

/-- Freshly initialized tally record with `polling_end_time = 20`. -/
def tally0 : TallyRecord := init_tally 1 [5] 20

/-- Full chain state right after all four modules are initialized and three
voters registered. -/
def chain0 : ChainState :=
  { registry := regABC, ballot_box := ballot0, board := board0, tally := tally0 }

/-! ## Helper lemmas -/

/-- An eligible voter is registered, so `mark_voted` on them commits. -/
theorem mark_voted_ok_of_eligible (r : Registry) (e : Bytes)
    (h : is_voter_eligible r e = true) : okB (mark_voted r e) = true := by
  unfold is_voter_eligible at h
  cases hg : tget r.voters e with
  | none => rw [hg] at h; simp at h
  | some v => simp [mark_voted, hg, okB]

/-! ## Claims -/

/-- C9: `register_voter(x)` succeeds at most once.  A successful call means
the key was absent; it inserts a `VoterRegistration` with
`is_struck_off = true` and `has_voted = false` (and `is_active = true`,
`registered_at = now`); a second call on the same `epic_hash` aborts
`EALREADY_REGISTERED` — and an aborted Move transaction commits nothing, so
the registry is unchanged. -/
theorem voting_C9 (r r1 : Registry) (now now2 : Nat) (e a b a2 b2 : Bytes)
    (h : register_voter r now e a b = .ok r1) :
    tcontains r.voters e = false ∧
    tget r1.voters e = some
      { epic_hash := e, aadhaar_hash := a, biometric_hash := b,
        registered_at := now, is_active := true, is_struck_off := true,
        has_voted := false } ∧
    register_voter r1 now2 e a2 b2 = .error .EALREADY_REGISTERED := by
  unfold register_voter at h ⊢
  by_cases hc : tcontains r.voters e
  · simp [hc] at h
  · simp only [hc, Bool.false_eq_true, if_false, Except.ok.injEq] at h
    subst h
    refine ⟨by simpa using hc, ?_, ?_⟩
    · exact tget_tset_self r.voters e _
    · have : tcontains (tset r.voters e
        { epic_hash := e, aadhaar_hash := a, biometric_hash := b,
          registered_at := now, is_active := true, is_struck_off := true,
          has_voted := false }) e = true := by
        simp [tcontains, tget_tset_self]
      simp [this]

/-- C9 witness: instantiated on the concrete fixture registry. -/
theorem voting_C9_witness :
    tcontains (init_registry 1).voters [1] = false ∧
    tget regA.voters [1] = some
      { epic_hash := [1], aadhaar_hash := [11], biometric_hash := [12],
        registered_at := 9, is_active := true, is_struck_off := true,
        has_voted := false } ∧
    register_voter regA 30 [1] [98] [99] = .error .EALREADY_REGISTERED :=
  voting_C9 (init_registry 1) regA 9 30 [1] [11] [12] [98] [99] rfl

/-- C7: `is_voter_eligible` is a pure query, true iff a record exists that is
active and has not voted; hence it is true right after a successful
`register_voter`, false right after `mark_voted`, and true again after
`reset_voted_status` (`is_active` is untouched by both). -/
theorem voting_C7 (r0 r1 r2 r3 : Registry) (now : Nat) (e a b : Bytes)
    (h1 : register_voter r0 now e a b = .ok r1)
    (h2 : mark_voted r1 e = .ok r2)
    (h3 : reset_voted_status r2 e = .ok r3) :
    (∀ (r' : Registry) (e' : Bytes), is_voter_eligible r' e' = true ↔
      ∃ v, tget r'.voters e' = some v ∧ v.is_active = true ∧ v.has_voted = false) ∧
    is_voter_eligible r1 e = true ∧
    is_voter_eligible r2 e = false ∧
    is_voter_eligible r3 e = true := by
  have hchar : ∀ (r' : Registry) (e' : Bytes), is_voter_eligible r' e' = true ↔
      ∃ v, tget r'.voters e' = some v ∧ v.is_active = true ∧ v.has_voted = false := by
    intro r' e'
    unfold is_voter_eligible
    cases hg : tget r'.voters e' with
    | none => simp
    | some v => simp [hg]
  -- the record inserted by register_voter
  unfold register_voter at h1
  by_cases hc : tcontains r0.voters e
  · simp [hc] at h1
  · simp only [hc, Bool.false_eq_true, if_false, Except.ok.injEq] at h1
    subst h1
    set rec1 : VoterRegistration :=
      { epic_hash := e, aadhaar_hash := a, biometric_hash := b,
        registered_at := now, is_active := true, is_struck_off := true,
        has_voted := false } with hrec1
    have hg1 : tget (tset r0.voters e rec1) e = some rec1 := tget_tset_self _ _ _
    -- r2 comes from mark_voted on that record
    unfold mark_voted at h2
    rw [hg1] at h2
    simp only [Except.ok.injEq] at h2
    subst h2
    have hg2 : tget (tset (tset r0.voters e rec1) e { rec1 with has_voted := true }) e
        = some { rec1 with has_voted := true } := tget_tset_self _ _ _
    -- r3 comes from reset_voted_status on that record
    unfold reset_voted_status at h3
    rw [hg2] at h3
    simp only [Except.ok.injEq] at h3
    subst h3
    have hg3 : tget (tset (tset (tset r0.voters e rec1) e { rec1 with has_voted := true })
        e { { rec1 with has_voted := true } with has_voted := false }) e
        = some { { rec1 with has_voted := true } with has_voted := false } :=
      tget_tset_self _ _ _
    refine ⟨hchar, ?_, ?_, ?_⟩
    · simp [is_voter_eligible, hg1, hrec1]
    · simp [is_voter_eligible, hg2]
    · simp [is_voter_eligible, hg3, hrec1]

/-- C7 witness: the register → mark → reset cycle on the concrete fixture. -/
theorem voting_C7_witness :
    is_voter_eligible regA [1] = true ∧
    is_voter_eligible (getOk (mark_voted regA [1]) regA) [1] = false ∧
    is_voter_eligible
      (getOk (reset_voted_status (getOk (mark_voted regA [1]) regA) [1])
        (getOk (mark_voted regA [1]) regA)) [1] = true := by
  have h := voting_C7 (init_registry 1) regA (getOk (mark_voted regA [1]) regA)
    (getOk (reset_voted_status (getOk (mark_voted regA [1]) regA) [1])
      (getOk (mark_voted regA [1]) regA)) 9 [1] [11] [12] rfl rfl rfl
  exact ⟨h.2.1, h.2.2.1, h.2.2.2⟩

/-- C10 (implicit): `mark_voted` and `reset_voted_status` are entry functions
with no `&signer` parameter, hence no caller authorization: for every sender
the result is identical, the call aborts `ENOT_REGISTERED` exactly when no
record exists for the `epic_hash`, and otherwise commits, setting or clearing
that voter's `has_voted` flag. -/
theorem voting_C10 (r : Registry) (sender sender' : Addr) (e : Bytes) :
    mark_voted_entry r sender e = mark_voted_entry r sender' e ∧
    reset_voted_entry r sender e = reset_voted_entry r sender' e ∧
    (mark_voted_entry r sender e = .error .ENOT_REGISTERED ↔ tget r.voters e = none) ∧
    (reset_voted_entry r sender e = .error .ENOT_REGISTERED ↔ tget r.voters e = none) ∧
    (∀ v, tget r.voters e = some v →
      mark_voted_entry r sender e =
        .ok { r with voters := tset r.voters e { v with has_voted := true } } ∧
      reset_voted_entry r sender e =
        .ok { r with voters := tset r.voters e { v with has_voted := false } }) := by
  unfold mark_voted_entry reset_voted_entry mark_voted reset_voted_status
  cases hg : tget r.voters e with
  | none => simp [hg]
  | some v => simp [hg]

/-- C10 witness: a sender distinct from the admin (or anyone) marks and
resets a registered voter, and gets `ENOT_REGISTERED` on an unknown hash. -/
theorem voting_C10_witness :
    mark_voted_entry regA 77 [1] = mark_voted_entry regA 88 [1] ∧
    (mark_voted_entry regA 77 [9] = .error .ENOT_REGISTERED) := by
  refine ⟨(voting_C10 regA 77 88 [1]).1, ?_⟩
  exact (voting_C10 regA 77 88 [9]).2.2.1.mpr rfl

/-- C3 counterexample: the claim says a `cast_vote` at `now = polling_end`
fails `EPOLLING_ENDED` and `is_polling_active` is false there (half-open
window).  In the code the window is closed: at `now = 20 = polling_end` the
cast commits and `is_polling_active` is true. -/
theorem voting_C3_counterexample :
    okB (cast_vote chain0 7 20 [1] [31] [32] [33] [7]) = true ∧
    is_polling_active chain0.ballot_box 20 = true := by
  decide

/-- C3 (amended): the polling window is the CLOSED interval
`[polling_start, polling_end]`: `cast_vote` with `now < polling_start` aborts
`EPOLLING_NOT_STARTED`, with `now > polling_end` aborts `EPOLLING_ENDED`, and
commits at both boundaries (eligible voter assumed); `is_polling_active` is
true iff `polling_start ≤ now ≤ polling_end`. -/
theorem voting_C3 (s : ChainState) (voter : Addr) (now : Nat)
    (e vc vh ih code : Bytes) :
    (now < s.ballot_box.polling_start →
      cast_vote s voter now e vc vh ih code = .error .EPOLLING_NOT_STARTED) ∧
    (s.ballot_box.polling_start ≤ now → s.ballot_box.polling_end < now →
      cast_vote s voter now e vc vh ih code = .error .EPOLLING_ENDED) ∧
    (s.ballot_box.polling_start ≤ now → now ≤ s.ballot_box.polling_end →
      is_voter_eligible s.registry e = true →
      okB (cast_vote s voter now e vc vh ih code) = true) ∧
    (is_polling_active s.ballot_box now = true ↔
      (s.ballot_box.polling_start ≤ now ∧ now ≤ s.ballot_box.polling_end)) := by
  refine ⟨?_, ?_, ?_, ?_⟩
  · intro h
    simp [cast_vote, h]
  · intro h1 h2
    simp [cast_vote, Nat.not_lt.mpr h1, h2]
  · intro h1 h2 helig
    have hm := mark_voted_ok_of_eligible s.registry e helig
    cases hmv : mark_voted s.registry e with
    | error err => rw [hmv] at hm; simp [okB] at hm
    | ok reg =>
        simp [cast_vote, Nat.not_lt.mpr h1, Nat.not_lt.mpr h2, helig, hmv, okB]
  · simp [is_polling_active]

/-- C3 witness: before the window, after the window, at the start boundary,
and the active-window characterization, on the concrete fixture. -/
theorem voting_C3_witness :
    cast_vote chain0 7 5 [1] [31] [32] [33] [7] = .error .EPOLLING_NOT_STARTED ∧
    cast_vote chain0 7 25 [1] [31] [32] [33] [7] = .error .EPOLLING_ENDED ∧
    okB (cast_vote chain0 7 10 [1] [31] [32] [33] [7]) = true ∧
    (is_polling_active chain0.ballot_box 15 = true ↔ (10 ≤ 15 ∧ 15 ≤ 20)) := by
  refine ⟨?_, ?_, ?_, ?_⟩
  · exact (voting_C3 chain0 7 5 [1] [31] [32] [33] [7]).1 (by decide)
  · exact (voting_C3 chain0 7 25 [1] [31] [32] [33] [7]).2.1 (by decide) (by decide)
  · exact (voting_C3 chain0 7 10 [1] [31] [32] [33] [7]).2.2.1
      (by decide) (by decide) (by decide)
  · exact (voting_C3 chain0 7 15 [1] [31] [32] [33] [7]).2.2.2

/-- C4 counterexample: the claim says every privileged operation, including
`updateMerkleRoot` on the BulletinBoard, aborts `EUNAUTHORIZED` for a caller
other than the module's initializer (admin 1 in the fixture).  In the code
`bulletin_board::update_merkle_root` performs no authorization check at all:
caller 99 commits and the stored root changes. -/
theorem voting_C4_counterexample :
    okB (board_update_merkle_root board0 99 [9]) = true ∧
    (getOk (board_update_merkle_root board0 99 [9]) board0).merkle_root = [9] := by
  decide

/-- C4 (amended): `deactivate_voter`, the BallotBox `update_merkle_root`,
`start_tally`, `record_result` and `finalize_tally` all abort `EUNAUTHORIZED`
for any caller other than the stored admin (and an abort commits nothing).
The BulletinBoard's `update_merkle_root` and `update_merkle_proof`, however,
check no caller: the root update always commits, and the proof update
commits exactly when the record exists, for every caller. -/
theorem voting_C4 (r : Registry) (bb : BallotBox) (t : TallyRecord)
    (b : BulletinBoard) (caller : Addr) (e root cid rh zp : Bytes)
    (mproof : List Bytes) (now tv cnt pct v i : Nat) :
    (caller ≠ r.admin → deactivate_voter r caller e = .error .EUNAUTHORIZED) ∧
    (caller ≠ bb.admin →
      ballot_update_merkle_root bb caller root = .error .EUNAUTHORIZED) ∧
    (caller ≠ t.admin → start_tally t caller now tv = .error .EUNAUTHORIZED) ∧
    (caller ≠ t.admin → record_result t caller cid cnt pct = .error .EUNAUTHORIZED) ∧
    (caller ≠ t.admin →
      finalize_tally t caller now v i rh zp = .error .EUNAUTHORIZED) ∧
    board_update_merkle_root b caller root = .ok { b with merkle_root := root } ∧
    okB (board_update_merkle_proof b caller e mproof) = tcontains b.records e := by
  refine ⟨?_, ?_, ?_, ?_, ?_, ?_, ?_⟩
  · intro h; simp [deactivate_voter, h]
  · intro h; simp [ballot_update_merkle_root, h]
  · intro h; simp [start_tally, h]
  · intro h; simp [record_result, h]
  · intro h; simp [finalize_tally, h]
  · simp [board_update_merkle_root]
  · cases hg : tget b.records e with
    | none => simp [board_update_merkle_proof, hg, okB, tcontains]
    | some vr => simp [board_update_merkle_proof, hg, okB, tcontains]

/-- C4 witness: caller 99 (not an admin of any fixture module) is refused by
the five checked operations and accepted by the bulletin board's root
update. -/
theorem voting_C4_witness :
    deactivate_voter regABC 99 [1] = .error .EUNAUTHORIZED ∧
    ballot_update_merkle_root ballot0 99 [9] = .error .EUNAUTHORIZED ∧
    start_tally tally0 99 25 3 = .error .EUNAUTHORIZED ∧
    record_result tally0 99 [4] 1 10000 = .error .EUNAUTHORIZED ∧
    finalize_tally tally0 99 25 1 0 [6] [7] = .error .EUNAUTHORIZED ∧
    board_update_merkle_root board0 99 [9] = .ok { board0 with merkle_root := [9] } := by
  have h := voting_C4 regABC ballot0 tally0 board0 99 [1] [9] [4] [6] [7] [] 25 3 1 10000 1 0
  exact ⟨h.1 (by decide), h.2.1 (by decide), h.2.2.1 (by decide),
    h.2.2.2.1 (by decide), h.2.2.2.2.1 (by decide), h.2.2.2.2.2.1⟩

/-- C5 counterexample: the claim says a second `start_tally` call fails
`EALREADY_FINALIZED` because the phase is no longer NotStarted.  The code
tracks no Started phase — it checks only `is_finalized` — so a second
`start_tally` before finalization commits. -/
theorem voting_C5_counterexample :
    okB (start_tally tally0 1 25 3) = true ∧
    okB (start_tally (getOk (start_tally tally0 1 25 3) tally0) 1 26 4) = true := by
  decide

/-- C5 (amended): `start_tally` by the admin with `now < polling_end_time`
aborts `EPOLLING_NOT_ENDED`; but `start_tally` requires only
`!is_finalized`, so a second admin `start_tally` after polling end commits
again (overwriting `total_votes` and `tally_start_time`); a second
`finalize_tally` aborts `EALREADY_FINALIZED`; `get_zkp_proof` before
finalization aborts `ENOT_FINALIZED`. -/
theorem voting_C5 (t t' tf : TallyRecord) (caller : Addr)
    (now now2 tv tv2 v i v2 i2 : Nat) (rh zp rh2 zp2 : Bytes) :
    (caller = t.admin → now < t.polling_end_time →
      start_tally t caller now tv = .error .EPOLLING_NOT_ENDED) ∧
    (start_tally t caller now tv = .ok t' → t.polling_end_time ≤ now2 →
      okB (start_tally t' caller now2 tv2) = true) ∧
    (finalize_tally t caller now v i rh zp = .ok tf →
      finalize_tally tf caller now2 v2 i2 rh2 zp2 = .error .EALREADY_FINALIZED) ∧
    (t.is_finalized = false → get_zkp_proof t = .error .ENOT_FINALIZED) := by
  refine ⟨?_, ?_, ?_, ?_⟩
  · intro h1 h2
    simp [start_tally, h1, h2]
  · intro h hend
    unfold start_tally at h
    by_cases h1 : caller ≠ t.admin
    · simp [h1] at h
    · by_cases h2 : now < t.polling_end_time
      · simp [h1, h2] at h
      · by_cases h3 : t.is_finalized
        · simp [h1, h2, h3] at h
        · simp [h1, h2, h3] at h
          subst h
          simp [start_tally, h1, h3, Nat.not_lt.mpr hend, okB]
  · intro h
    unfold finalize_tally at h
    by_cases h1 : caller ≠ t.admin
    · simp [h1] at h
    · by_cases h2 : t.is_finalized
      · simp [h1, h2] at h
      · simp [h1, h2] at h
        subst h
        simp [finalize_tally, h1]
  · intro h
    simp [get_zkp_proof, h]

/-- Tally after one successful `start_tally` (fixture). -/
def tallyS : TallyRecord := getOk (start_tally tally0 1 25 3) tally0

/-- Tally after one successful `finalize_tally` (fixture). -/
def tallyF : TallyRecord := getOk (finalize_tally tally0 1 25 2 1 [6] [7]) tally0

/-- C5 witness: all four behaviors on the concrete fixture. -/
theorem voting_C5_witness :
    start_tally tally0 1 15 3 = .error .EPOLLING_NOT_ENDED ∧
    okB (start_tally tallyS 1 26 4) = true ∧
    finalize_tally tallyF 1 27 9 9 [8] [9] = .error .EALREADY_FINALIZED ∧
    get_zkp_proof tally0 = .error .ENOT_FINALIZED := by
  refine ⟨?_, ?_, ?_, ?_⟩
  · exact (voting_C5 tally0 tallyS tallyF 1 15 26 3 4 2 1 9 9 [6] [7] [8] [9]).1
      (by decide) (by decide)
  · exact (voting_C5 tally0 tallyS tallyF 1 25 26 3 4 2 1 9 9 [6] [7] [8] [9]).2.1
      rfl (by decide)
  · exact (voting_C5 tally0 tallyS tallyF 1 25 27 3 4 2 1 9 9 [6] [7] [8] [9]).2.2.1 rfl
  · exact (voting_C5 tally0 tallyS tallyF 1 25 26 3 4 2 1 9 9 [6] [7] [8] [9]).2.2.2 rfl

/-- C6: the TallyState invariant.  Every committed mutating tally operation
starts from a non-finalized record (so once `is_finalized` is set nothing
mutates again: finalization is one-way and results are frozen); operations
other than `finalize_tally` leave `result_hash`, `zkp_proof` and
`is_finalized` unchanged (they stay at their initial values until
finalization); `finalize_tally` sets `is_finalized` — and since it requires
`!is_finalized`, it commits at most once, so `result_hash` and `zkp_proof`
are written exactly once, at finalization. -/
theorem voting_C6 (t t' : TallyRecord) (op : TallyOp) (h : tstep t op = .ok t') :
    t.is_finalized = false ∧
    (isFinalizeOp op = false → t'.is_finalized = false ∧
      t'.result_hash = t.result_hash ∧ t'.zkp_proof = t.zkp_proof) ∧
    (isFinalizeOp op = true → t'.is_finalized = true) := by
  cases op with
  | startT caller now tv =>
    unfold tstep start_tally at h
    by_cases h1 : caller ≠ t.admin
    · simp [h1] at h
    · by_cases h2 : now < t.polling_end_time
      · simp [h1, h2] at h
      · by_cases h3 : t.is_finalized
        · simp [h1, h2, h3] at h
        · simp [h1, h2, h3] at h
          subst h
          refine ⟨by simpa using h3, ?_, ?_⟩
          · intro _; exact ⟨by simpa using h3, rfl, rfl⟩
          · intro hf; simp [isFinalizeOp] at hf
  | recordR caller cid cnt pct =>
    unfold tstep record_result at h
    by_cases h1 : caller ≠ t.admin
    · simp [h1] at h
    · by_cases h2 : t.is_finalized
      · simp [h1, h2] at h
      · simp [h1, h2] at h
        subst h
        refine ⟨by simpa using h2, ?_, ?_⟩
        · intro _; exact ⟨by simpa using h2, rfl, rfl⟩
        · intro hf; simp [isFinalizeOp] at hf
  | finalizeT caller now v i rh zp =>
    unfold tstep finalize_tally at h
    by_cases h1 : caller ≠ t.admin
    · simp [h1] at h
    · by_cases h2 : t.is_finalized
      · simp [h1, h2] at h
      · simp [h1, h2] at h
        subst h
        refine ⟨by simpa using h2, ?_, ?_⟩
        · intro hf; simp [isFinalizeOp] at hf
        · intro _; rfl

/-- C6 witness: a concrete committed `start_tally` step, and a concrete
committed `finalize_tally` step. -/
theorem voting_C6_witness :
    tally0.is_finalized = false ∧ tallyS.is_finalized = false ∧
    tallyS.result_hash = tally0.result_hash ∧ tallyF.is_finalized = true := by
  have hs := voting_C6 tally0 tallyS (.startT 1 25 3) rfl
  have hf := voting_C6 tally0 tallyF (.finalizeT 1 25 2 1 [6] [7]) rfl
  exact ⟨hs.1, (hs.2.1 rfl).1, (hs.2.1 rfl).2.1, hf.2.2 rfl⟩

/-- Chain state after one committed `cast_vote` on the fixture (voter `[1]`,
tracking code `[7]`, vote hash `[32]`, at time 15). -/
def c1_after : ChainState :=
  getOk (cast_vote chain0 7 15 [1] [31] [32] [33] [7]) chain0

/-- C1 counterexample: the claim says the commitment is mirrored into the
BulletinBoard as part of the same `cast_vote` operation, so that
`get_vote_record` and `verify_vote` afterwards report the same hash and
timestamp.  In the code `cast_vote` never writes the bulletin board: after a
committed cast, `verify_vote` reports the vote but `get_vote_record` still
returns the not-found sentinel `(empty, 0, false)`. -/
theorem voting_C1_counterexample :
    okB (cast_vote chain0 7 15 [1] [31] [32] [33] [7]) = true ∧
    verify_vote c1_after.ballot_box [7] = (true, [32], 15) ∧
    get_vote_record c1_after.board [7] = ([], 0, false) := by
  decide

/-- C1 (amended): `cast_vote` performs no BulletinBoard (and no TallyRecord)
write whatsoever — both resources are unchanged by every committed
`cast_vote`; mirroring a commitment onto the bulletin board happens only
through the separate `record_vote` entry function, in a separate
transaction. -/
theorem voting_C1 (s s' : ChainState) (voter : Addr) (now : Nat)
    (e vc vh ih code : Bytes)
    (h : cast_vote s voter now e vc vh ih code = .ok s') :
    s'.board = s.board ∧ s'.tally = s.tally := by
  unfold cast_vote at h
  by_cases g1 : now < s.ballot_box.polling_start
  · simp [g1] at h
  · by_cases g2 : s.ballot_box.polling_end < now
    · simp [g1, g2] at h
    · by_cases g3 : is_voter_eligible s.registry e
      · cases hmv : mark_voted s.registry e with
        | error err => simp [g1, g2, g3, hmv] at h
        | ok reg =>
            simp [g1, g2, g3, hmv] at h
            subst h
            exact ⟨rfl, rfl⟩
      · simp [g1, g2, g3] at h

/-- C1 witness: the committed fixture cast leaves board and tally intact. -/
theorem voting_C1_witness :
    c1_after.board = chain0.board ∧ c1_after.tally = chain0.tally :=
  voting_C1 chain0 c1_after 7 15 [1] [31] [32] [33] [7] rfl

/-- Chain state after voter `[1]` casts `v1 = [40]` under code `[7]` at 12. -/
def c2_s1 : ChainState :=
  getOk (cast_vote chain0 7 12 [1] [31] [40] [33] [7]) chain0

/-- Chain state after voter `[2]` recasts `v2 = [41]` under code `[7]` at 13. -/
def c2_s2 : ChainState :=
  getOk (cast_vote c2_s1 8 13 [2] [34] [41] [35] [7]) c2_s1

/-- C2 counterexample: the claim says that after two casts under one tracking
code the `v1` commitment remains retrievable with `is_final = false` (prior
data retained for audit, never deleted).  In the code the revote branch first
flips the old commitment's `is_final` and then `table::upsert`s the new
commitment over the SAME key, so the `v1` data is destroyed: after the two
committed casts the entire votes table is the single `v2` record, and no
commitment with vote hash `[40] = v1` exists anywhere. -/
theorem voting_C2_counterexample :
    okB (cast_vote chain0 7 12 [1] [31] [40] [33] [7]) = true ∧
    okB (cast_vote c2_s1 8 13 [2] [34] [41] [35] [7]) = true ∧
    verify_vote c2_s2.ballot_box [7] = (true, [41], 13) ∧
    c2_s2.ballot_box.votes =
      [([7], { voter_commitment := [34], vote_hash := [41], ipfs_hash := [35],
               tracking_code_hash := [7], cast_at := 13, is_final := true })] := by
  decide

/-- C2 (amended): last-vote-counts holds for the lookup — after a second
committed `cast_vote` under the same `tracking_code_hash` (the registry may
have been updated in between, e.g. by `reset_voted_status`), `verify_vote`
returns `(true, v2, t2)` and the slot holds exactly the new commitment; the
prior `v1` commitment is overwritten, not retained. -/
theorem voting_C2 (s1 s2 s2x s3 : ChainState) (a1 a2 : Addr) (t1 t2 : Nat)
    (e1 vc1 v1 ih1 e2 vc2 v2 ih2 code : Bytes)
    (h1 : cast_vote s1 a1 t1 e1 vc1 v1 ih1 code = .ok s2)
    (hbb : s2x.ballot_box = s2.ballot_box)
    (h2 : cast_vote s2x a2 t2 e2 vc2 v2 ih2 code = .ok s3) :
    verify_vote s3.ballot_box code = (true, v2, t2) ∧
    tget s3.ballot_box.votes code = some
      { voter_commitment := vc2, vote_hash := v2, ipfs_hash := ih2,
        tracking_code_hash := code, cast_at := t2, is_final := true } := by
  unfold cast_vote at h2
  by_cases g1 : t2 < s2x.ballot_box.polling_start
  · simp [g1] at h2
  · by_cases g2 : s2x.ballot_box.polling_end < t2
    · simp [g1, g2] at h2
    · by_cases g3 : is_voter_eligible s2x.registry e2
      · cases hmv : mark_voted s2x.registry e2 with
        | error err => simp [g1, g2, g3, hmv] at h2
        | ok reg =>
            simp [g1, g2, g3, hmv] at h2
            subst h2
            have hslot := tget_tset_self
              (if tcontains s2x.ballot_box.votes code then
                match tget s2x.ballot_box.votes code with
                | some old => tset s2x.ballot_box.votes code { old with is_final := false }
                | none => s2x.ballot_box.votes
              else s2x.ballot_box.votes) code
              ({ voter_commitment := vc2, vote_hash := v2, ipfs_hash := ih2,
                 tracking_code_hash := code, cast_at := t2, is_final := true } : VoteCommitment)
            refine ⟨?_, ?_⟩
            · simp [verify_vote, hslot]
            · simpa using hslot
      · simp [g1, g2, g3] at h2

/-- C2 witness: the concrete two-cast run (two registered voters sharing the
tracking code `[7]`). -/
theorem voting_C2_witness :
    verify_vote c2_s2.ballot_box [7] = (true, [41], 13) ∧
    tget c2_s2.ballot_box.votes [7] = some
      { voter_commitment := [34], vote_hash := [41], ipfs_hash := [35],
        tracking_code_hash := [7], cast_at := 13, is_final := true } :=
  voting_C2 chain0 c2_s1 c2_s1 c2_s2 7 8 12 13
    [1] [31] [40] [33] [2] [34] [41] [35] [7] rfl rfl rfl

/-- A committed `cast_vote` leaves the stored tracking codes unchanged on a
revote and appends the new code otherwise; `vote_count` is bumped exactly in
the fresh-code case. -/
theorem cast_vote_keys (s s' : ChainState) (voter : Addr) (now : Nat)
    (e vc vh ih code : Bytes)
    (h : cast_vote s voter now e vc vh ih code = .ok s') :
    keysOf s'.ballot_box.votes =
      (if tcontains s.ballot_box.votes code then keysOf s.ballot_box.votes
       else keysOf s.ballot_box.votes ++ [code]) ∧
    s'.ballot_box.vote_count =
      (if tcontains s.ballot_box.votes code then s.ballot_box.vote_count
       else s.ballot_box.vote_count + 1) := by
  unfold cast_vote at h
  by_cases g1 : now < s.ballot_box.polling_start
  · simp [g1] at h
  · by_cases g2 : s.ballot_box.polling_end < now
    · simp [g1, g2] at h
    · by_cases g3 : is_voter_eligible s.registry e
      · cases hmv : mark_voted s.registry e with
        | error err => simp [g1, g2, g3, hmv] at h
        | ok reg =>
            simp [g1, g2, g3, hmv] at h
            subst h
            by_cases hc : tcontains s.ballot_box.votes code
            · cases hg : tget s.ballot_box.votes code with
              | none => simp [tcontains, hg] at hc
              | some old =>
                  have h0 : tcontains (tset s.ballot_box.votes code
                      { old with is_final := false }) code = true := by
                    simp [tcontains, tget_tset_self]
                  simp [hc, hg, keysOf_tset, h0]
            · simp [hc, keysOf_tset]
      · simp [g1, g2, g3] at h

/-- Running committed casts from a state whose stored codes are distinct and
counted by `vote_count` preserves that invariant, and the final code set is
the initial one united with the submitted codes. -/
theorem runCasts_distinct_aux (reqs : List CastReq) : ∀ (s s' : ChainState),
    runCasts s reqs = .ok s' →
    (keysOf s.ballot_box.votes).Nodup →
    s.ballot_box.vote_count = (keysOf s.ballot_box.votes).length →
    (keysOf s'.ballot_box.votes).Nodup ∧
    s'.ballot_box.vote_count = (keysOf s'.ballot_box.votes).length ∧
    (keysOf s'.ballot_box.votes).toFinset =
      (keysOf s.ballot_box.votes).toFinset ∪
        (reqs.map CastReq.tracking_code_hash).toFinset := by
  induction reqs with
  | nil =>
      intro s s' h hnd hcnt
      simp [runCasts] at h
      subst h
      simp [hnd, hcnt]
  | cons r rest ih =>
      intro s s' h hnd hcnt
      unfold runCasts at h
      cases hcv : cast_vote s r.sender r.now r.epic_hash r.voter_commitment
          r.vote_hash r.ipfs_hash r.tracking_code_hash with
      | error err => rw [hcv] at h; simp at h
      | ok s1 =>
          rw [hcv] at h
          obtain ⟨hkeys, hcount⟩ := cast_vote_keys s s1 r.sender r.now r.epic_hash
            r.voter_commitment r.vote_hash r.ipfs_hash r.tracking_code_hash hcv
          by_cases hc : tcontains s.ballot_box.votes r.tracking_code_hash
          · rw [if_pos hc] at hkeys
            rw [if_pos hc] at hcount
            have hnd1 : (keysOf s1.ballot_box.votes).Nodup := hkeys ▸ hnd
            have hcnt1 : s1.ballot_box.vote_count =
                (keysOf s1.ballot_box.votes).length := by
              rw [hkeys, hcount, hcnt]
            obtain ⟨nd', cnt', fin'⟩ := ih s1 s' h hnd1 hcnt1
            refine ⟨nd', cnt', ?_⟩
            rw [fin', hkeys]
            have hmem : r.tracking_code_hash ∈ (keysOf s.ballot_box.votes).toFinset :=
              List.mem_toFinset.mpr ((mem_keysOf_iff_tcontains _ _).mpr hc)
            simp only [List.map_cons, List.toFinset_cons]
            rw [Finset.union_insert,
              Finset.insert_eq_self.mpr (Finset.mem_union_left _ hmem)]
          · rw [if_neg hc] at hkeys
            rw [if_neg hc] at hcount
            have hnotmem : r.tracking_code_hash ∉ keysOf s.ballot_box.votes := by
              rw [mem_keysOf_iff_tcontains]
              simpa using hc
            have hnd1 : (keysOf s1.ballot_box.votes).Nodup := by
              rw [hkeys, List.nodup_append]
              refine ⟨hnd, List.nodup_singleton _, ?_⟩
              intro a ha hb
              rw [List.mem_singleton] at hb
              subst hb
              exact hnotmem ha
            have hcnt1 : s1.ballot_box.vote_count =
                (keysOf s1.ballot_box.votes).length := by
              rw [hkeys, hcount, List.length_append, hcnt]
              rfl
            obtain ⟨nd', cnt', fin'⟩ := ih s1 s' h hnd1 hcnt1
            refine ⟨nd', cnt', ?_⟩
            rw [fin', hkeys, List.toFinset_append]
            simp [List.map_cons, List.toFinset_cons, Finset.insert_eq,
              Finset.union_assoc]

/-- C8: from a freshly initialized ballot box, after any sequence of
committed `cast_vote` transactions `get_vote_count` equals the number of
DISTINCT tracking codes submitted, not the number of calls: the counter is
bumped only when the `tracking_code_hash` is new. -/
theorem voting_C8 (s s' : ChainState) (reqs : List CastReq)
    (h0 : s.ballot_box.votes = []) (hzero : s.ballot_box.vote_count = 0)
    (h : runCasts s reqs = .ok s') :
    get_vote_count s'.ballot_box =
      (reqs.map CastReq.tracking_code_hash).toFinset.card := by
  have hnd : (keysOf s.ballot_box.votes).Nodup := by simp [h0, keysOf]
  have hcnt : s.ballot_box.vote_count = (keysOf s.ballot_box.votes).length := by
    simp [h0, hzero, keysOf]
  obtain ⟨nd', cnt', fin'⟩ := runCasts_distinct_aux reqs s s' h hnd hcnt
  rw [get_vote_count, cnt', ← List.toFinset_card_of_nodup nd', fin']
  simp [h0, keysOf]

/-- The three-transaction sequence of the claim: codes {A, A, B} with
A = `[7]`, B = `[8]`, cast by three distinct registered voters. -/
def c8_reqs : List CastReq :=
  [ { sender := 7, now := 12, epic_hash := [1], voter_commitment := [31],
      vote_hash := [40], ipfs_hash := [33], tracking_code_hash := [7] },
    { sender := 8, now := 13, epic_hash := [2], voter_commitment := [34],
      vote_hash := [41], ipfs_hash := [35], tracking_code_hash := [7] },
    { sender := 9, now := 14, epic_hash := [3], voter_commitment := [36],
      vote_hash := [42], ipfs_hash := [37], tracking_code_hash := [8] } ]

/-- Chain state after the {A, A, B} sequence commits. -/
def c8_final : ChainState := getOk (runCasts chain0 c8_reqs) chain0

/-- C8 witness: casting under codes {A, A, B} yields `get_vote_count = 2`. -/
theorem voting_C8_witness : get_vote_count c8_final.ballot_box = 2 := by
  have h := voting_C8 chain0 c8_final c8_reqs rfl rfl rfl
  rw [h]
  decide

end Voting
